import Mathlib

/-!
Verification of the slot-based declaration repair engine (`src/run.js`).

This file gives a shallow embedding of the pure core of the repair engine:
declaration synthesis (`buildDtsFromPreds`, `pickCandidate`), checker-output
analysis (`firstErrorCode`, `countErrors`, `parseDiagnostics`, `classify`),
scoring (`isTrivialType`, `countTrivialSelected`, `computeScore`), the
assignment-evaluation cache (`evalWithAssignment` with its canonical key),
and the greedy repair search (`chooseSlotToFix`, `repairProject`).

The external type-checker process is modelled as an oracle mapping a project
path and an assignment to the raw run observation (exit code, captured
output, timeout flag); everything the engine derives from that observation
is embedded faithfully.  File-system and logging side effects (log files,
writing the generated `.d.ts`, tsconfig injection/restoration) as well as
wall-clock fields (`durationMs`, `logPath`, `normalized`) are not modelled;
no claim depends on them.  JavaScript numbers are modelled as `ℚ`, and
JavaScript's `x ?? d` on possibly-missing numbers as `Option.getD`.
-/

namespace Run

/-! Section: Character-level helpers (JS string/regex primitives) -/

/-- The `\d` class of the checker error-code regexes: an ASCII digit. -/
def isDigit (c : Char) : Bool := '0' ≤ c && c ≤ '9'

/-- JS `String.prototype.trim` whitespace (ASCII part: space, tab, LF, VT, FF,
CR; the additional Unicode space code points never occur in the trivial-type
spellings being compared). -/
def isJsSpace (c : Char) : Bool :=
  c = ' ' || c = '\t' || c = '\n' || c = '\x0b' || c = '\x0c' || c = '\r'

/-- JS `trim()`: drop whitespace from both ends. -/
def trimJS (s : String) : String :=
  ⟨((s.data.dropWhile isJsSpace).reverse.dropWhile isJsSpace).reverse⟩

/-- Split on `/\r?\n/` (JS `split`): split at `'\n'`, then remove the single
`'\r'` that belonged to the separator from every piece but the last. -/
def splitNl : List Char → List (List Char)
  | [] => [[]]
  | '\n' :: rest => [] :: splitNl rest
  | c :: rest =>
    match splitNl rest with
    | [] => [[c]]
    | piece :: pieces => (c :: piece) :: pieces

/-- Drop one trailing `'\r'` (the optional `\r` of the `/\r?\n/` separator). -/
def dropCr (l : List Char) : List Char :=
  match l.reverse with
  | '\r' :: rest => rest.reverse
  | _ => l

/-- All lines of `s` under the JS split `s.split(/\r?\n/)`. -/
def jsLines (s : String) : List (List Char) :=
  match splitNl s.data with
  | [] => []
  | pieces => (pieces.dropLast.map dropCr) ++ [pieces.getLast!]

/-- JS `Array.prototype.join(sep)`, tail part: `sep + x₁ + sep + x₂ + ...`. -/
def joinTail (sep : String) : List String → String
  | [] => ""
  | y :: ys => sep ++ y ++ joinTail sep ys

/-- JS `Array.prototype.join(sep)`. -/
def joinArr (sep : String) : List String → String
  | [] => ""
  | x :: xs => x ++ joinTail sep xs

/-- Decimal digits to a number (`Number(...)` on a `\d+` match). -/
def digitsToNat (l : List Char) : Nat :=
  l.foldl (fun n c => 10 * n + (c.toNat - '0'.toNat)) 0

/-- Split a character list at every occurrence of a separator character. -/
def splitChar (sep : Char) : List Char → List (List Char)
  | [] => [[]]
  | c :: rest =>
    if c = sep then [] :: splitChar sep rest
    else
      match splitChar sep rest with
      | [] => [[c]]
      | piece :: pieces => (c :: piece) :: pieces

/-- Node `path.basename` (posix): last non-empty `/`-separated component;
the whole path when there is none (e.g. `"/"` or `""`). -/
def basename (p : String) : String :=
  match (splitChar '/' p.data).filter (fun s => s ≠ []) with
  | [] => p
  | parts => (⟨parts.getLast!⟩ : String)

/-! Section: Data model (prediction input, §6 of the spec) -/

/-- One proposed type for a slot, with the predictor's confidence score. -/
structure Candidate where
  type : String
  score : ℚ
  deriving DecidableEq

/-- One uncertain position of the generated declaration with its ranked
candidate list (`{slotId, candidates}` of the prediction JSON). -/
structure Slot where
  slotId : String
  candidates : List Candidate
  deriving DecidableEq

/-- One exported function signature (`{kind, name, params}`). -/
structure ExportSig where
  kind : String
  name : String
  params : List String
  deriving DecidableEq

/-- The prediction structure for a project.  The JS code reads every list
through `?? []`, so a missing list and an empty list are indistinguishable;
lists are therefore embedded directly. -/
structure Preds where
  libName : String
  exports : List ExportSig
  slots : List Slot
  deriving DecidableEq

/-- An assignment: the JS object mapping `slotId` to a candidate index,
embedded as an association list in property-insertion order. -/
abbrev Assignment := List (String × Nat)

/-- JS `assignment[slotId] ?? 0`. -/
def lookupIdx (a : Assignment) (sid : String) : Nat :=
  (List.lookup sid a).getD 0

/-- JS `{ ...a, [sid]: i }`: overwrite the property if present, else append it
(JS object spread keeps insertion order and re-assigns in place). -/
def setIdx (a : Assignment) (sid : String) (i : Nat) : Assignment :=
  if (List.lookup sid a).isSome then
    a.map (fun p => if p.1 = sid then (sid, i) else p)
  else a ++ [(sid, i)]

/-- Function `initialAssignment`: every slot at candidate index 0 (the `topk`
parameter of the JS function is unused there). -/
def initialAssignment (preds : Preds) : Assignment :=
  preds.slots.map (fun s => (s.slotId, 0))

/-! Section: Scoring (`isTrivialType`, `countTrivialSelected`, `computeScore`) -/

/-- Function `isTrivialType`: the trimmed type string is one of the five hardcoded
trivial spellings. -/
def isTrivialType (t : String) : Bool :=
  let s := trimJS t
  s = "any" || s = "Function" || s = "any[]" || s = "unknown" || s = "object"

/-- Function `countTrivialSelected`: count the slots whose selected candidate exists
and has a trivial type (`if (cand && isTrivialType(cand.type)) c++`). -/
def countTrivialSelected (preds : Preds) (a : Assignment) : Nat :=
  preds.slots.foldl
    (fun c s =>
      match s.candidates.get? (lookupIdx a s.slotId) with
      | some cand => if isTrivialType cand.type then c + 1 else c
      | none => c)
    0

/-- Function `computeScore`.  `errorCount`, `trivialCount` and `penaltyWeight` arrive
as possibly-missing JS numbers (`?? 9999` / `?? 0` defaults). -/
def computeScore (status : String) (errorCount : Option Nat)
    (trivialCount : Option Nat) (penaltyWeight : Option ℚ) : ℚ :=
  let penalty := penaltyWeight.getD 0 * (trivialCount.getD 0 : ℚ)
  if status = "success" then 0 + penalty
  else (errorCount.getD 9999 : ℚ) + penalty

/-- JS string order: lexicographic comparison of code units (each slot name
consists of basic-plane characters, where code units and code points
coincide). -/
def ltCharList : List Char → List Char → Bool
  | [], [] => false
  | [], _ :: _ => true
  | _ :: _, [] => false
  | a :: as, b :: bs =>
    if a.toNat < b.toNat then true
    else if b.toNat < a.toNat then false
    else ltCharList as bs

/-- The order used on keys: `a` not after `b`. -/
def jsStrLe (a b : String) : Bool := !(ltCharList b.data a.data)

/-- Toward `assignmentKey`: all `slotId=index` pairs, keys sorted, joined by `&`.
JS `Array.prototype.sort()` on the (distinct) keys is modelled by a stable
insertion sort under the JS string order. -/
def insertSorted (k : String) : List String → List String
  | [] => [k]
  | y :: ys => if jsStrLe k y then k :: y :: ys else y :: insertSorted k ys

/-- Sort a list of strings ascending (`Object.keys(a).sort()`). -/
def sortStrings (l : List String) : List String :=
  l.foldr insertSorted []

/-- Function `assignmentKey(assignment)`. -/
def assignmentKey (a : Assignment) : String :=
  joinArr "&" ((sortStrings (a.map Prod.fst)).map
    (fun k => k ++ "=" ++ toString (lookupIdx a k)))

/-! Section: Checker-output analysis -/

/-- First match of `/TS\d{4}/` scanning left to right: if the six characters
at the current position are `TS` followed by four digits the match is found,
otherwise the scan advances one character. -/
def findTS : List Char → Option (List Char)
  | [] => none
  | x :: rest =>
    match (x :: rest).take 6 with
    | ['T', 'S', a, b, c, d] =>
      if isDigit a && isDigit b && isDigit c && isDigit d then
        some ['T', 'S', a, b, c, d]
      else findTS rest
    | _ => findTS rest

/-- Function `firstErrorCode(output)`: `undefined` on empty output, else the first
`TS\d{4}` token of the output. -/
def firstErrorCode (output : String) : Option String :=
  if output = "" then none
  else (findTS output.data).map (fun l => (⟨l⟩ : String))

/-- Count of non-overlapping matches of `/error TS\d{4}:/g`
(`countErrors`); on a match the scan resumes after it, on a failure it
advances one character.  The first argument is fuel bounding the number of
scan steps; every step either stops or consumes at least one character, so
fuel equal to the input length never runs out. -/
def countErrorsAux : Nat → List Char → Nat
  | 0, _ => 0
  | _, [] => 0
  | fuel + 1, 'e' :: 'r' :: 'r' :: 'o' :: 'r' :: ' ' :: 'T' :: 'S' :: a :: b :: c :: d :: ':' :: rest =>
    if isDigit a && isDigit b && isDigit c && isDigit d then
      1 + countErrorsAux fuel rest
    else
      countErrorsAux fuel ('r' :: 'r' :: 'o' :: 'r' :: ' ' :: 'T' :: 'S' :: a :: b :: c :: d :: ':' :: rest)
  | fuel + 1, _ :: rest => countErrorsAux fuel rest

/-- Function `countErrors(output)`. -/
def countErrors (output : String) : Nat :=
  if output = "" then 0 else countErrorsAux output.data.length output.data

/-- Test `/^TS(50|180)/.test(errorCode)`: the code starts with `TS50` or `TS180`. -/
def isConfigCode (code : String) : Bool :=
  List.isPrefixOf "TS50".data code.data || List.isPrefixOf "TS180".data code.data

/-- Function `classify(exitCode, errorCode, timedOut)`.  The exit code is `none` when
the process was killed by a signal (`close` reports `null`); `errorCode` is
`none` when no `TS\d{4}` token was found (the found token is never the empty
string, so JS truthiness of `errorCode` is `isSome`). -/
def classify (exitCode : Option Int) (errorCode : Option String)
    (timedOut : Bool) : String :=
  if timedOut then "other_error"
  else if exitCode = some 0 then "success"
  else
    match errorCode with
    | some c => if isConfigCode c then "config_error" else "type_error"
    | none => "other_error"

/-- Function `head(text, maxLines)`: first `maxLines` lines re-joined with `\n`. -/
def headLines (text : String) (maxLines : Nat) : String :=
  joinArr "\n" (((jsLines text).take maxLines).map (fun l => (⟨l⟩ : String)))

/-! Section: Diagnostic parser (`parseDiagnostics`) -/

/-- One structured diagnostic record. -/
structure Diagnostic where
  filePath : String
  line : Nat
  col : Nat
  code : String
  text : String
  deriving DecidableEq

/-- Characters JS `.` does not match (besides being line-split already, a
line can still contain a bare `'\r'` or a Unicode line separator, which
bounds the `(.*)` group). -/
def isDotExcluded (c : Char) : Bool :=
  c = '\n' || c = '\r' || c = ' ' || c = ' '

/-- Match `(\d+),(\d+)\): error (TS\d{4}):` right after an opening paren
(both `\d+` groups are maximal digit runs, as the following literal is not a
digit). -/
def matchAfterParen (l : List Char) : Option (Nat × Nat × String) :=
  let (d1, rest1) := l.span isDigit
  if d1 = [] then none
  else
    match rest1 with
    | ',' :: rest2 =>
      let (d2, rest3) := rest2.span isDigit
      if d2 = [] then none
      else
        match rest3 with
        | ')' :: ':' :: ' ' :: 'e' :: 'r' :: 'r' :: 'o' :: 'r' :: ' ' :: 'T' :: 'S' :: a :: b :: c :: d :: ':' :: _ =>
          if isDigit a && isDigit b && isDigit c && isDigit d then
            some (digitsToNat d1, digitsToNat d2, (⟨['T', 'S', a, b, c, d]⟩ : String))
          else none
        | _ => none
    | _ => none

/-- Greedy `^(.*)\(` of the diagnostic line regex: of all `'('` positions
reachable without crossing a character `.` cannot match, take the rightmost
one whose tail matches `matchAfterParen`; the accumulator is group 1. -/
def scanParenAux (acc : List Char) : List Char → Option (List Char × Nat × Nat × String)
  | [] => none
  | ch :: rest =>
    if isDotExcluded ch then none
    else
      match scanParenAux (acc ++ [ch]) rest with
      | some r => some r
      | none =>
        if ch = '(' then
          (matchAfterParen rest).map (fun t => (acc, t.1, t.2.1, t.2.2))
        else none

/-- Node `path.isAbsolute` (posix). -/
def isAbsolute (p : String) : Bool :=
  p.startsWith "/"

/-- Node `path.resolve(cwd, p)` for an absolute `cwd` and a path without `.`/`..`
segments (the only shapes produced by the checker in this pipeline). -/
def resolvePath (cwd p : String) : String :=
  if isAbsolute p then p else cwd ++ "/" ++ p

/-- Parse one line of checker output against
`/^(.*)\((\d+),(\d+)\): error (TS\d{4}):/`. -/
def parseLine (cwd : String) (line : List Char) : Option Diagnostic :=
  (scanParenAux [] line).map (fun t =>
    { filePath := resolvePath cwd (⟨t.1⟩ : String)
      line := t.2.1
      col := t.2.2.1
      code := t.2.2.2
      text := (⟨line⟩ : String) })

/-- Function `parseDiagnostics(output, cwd)`: best-effort parse of every line,
silently skipping non-matching lines, order preserved. -/
def parseDiagnostics (output : String) (cwd : String) : List Diagnostic :=
  if output = "" then []
  else (jsLines output).filterMap (parseLine cwd)

/-! Section: Declaration synthesizer (`pickCandidate`, `buildDtsFromPreds`) -/

/-- The two generated-line numbers recorded for a return slot. -/
structure LineInfo where
  commentLine : Nat
  declLine : Nat
  deriving DecidableEq

/-- Function `pickCandidate(preds, slotId, assignment)`: the candidate selected by the
assignment; `{type: "any", score: 0}` when the slot is missing, the index is
out of range, or the candidate's `type` is falsy (the empty string). -/
def pickCandidate (preds : Preds) (sid : String) (a : Assignment) : Candidate :=
  let idx := lookupIdx a sid
  match preds.slots.find? (fun s => s.slotId = sid) with
  | some slot =>
    match slot.candidates.get? idx with
    | some cand => if cand.type = "" then ⟨"any", 0⟩ else cand
    | none => ⟨"any", 0⟩
  | none => ⟨"any", 0⟩

/-- The map `(exp.params ?? []).map((p, idx) => ...)`: render the parameter list of
one function, substituting each parameter slot's picked candidate type. -/
def renderParams (preds : Preds) (a : Assignment) (name : String) :
    Nat → List String → List String
  | _, [] => []
  | i, p :: rest =>
    (p ++ ": " ++ (pickCandidate preds (name ++ ":param:" ++ toString i) a).type)
      :: renderParams preds a name (i + 1) rest

/-- JS `slotLineMap[returnSlot] = v`: object property assignment — overwrite
in place when the key exists, otherwise append (insertion order). -/
def insertSLM (m : List (String × LineInfo)) (k : String) (v : LineInfo) :
    List (String × LineInfo) :=
  if (List.lookup k m).isSome then m.map (fun p => if p.1 = k then (k, v) else p)
  else m ++ [(k, v)]

/-- One iteration of the `for (const exp of preds.exports ?? [])` loop of
`buildDtsFromPreds`; the state is `(lines, lineNo, slotLineMap)`. -/
def buildStep (preds : Preds) (a : Assignment)
    (st : List String × Nat × List (String × LineInfo)) (exp : ExportSig) :
    List String × Nat × List (String × LineInfo) :=
  if exp.kind ≠ "function" then st
  else
    let lines := st.1
    let lineNo := st.2.1
    let slm := st.2.2
    let params := renderParams preds a exp.name 0 exp.params
    let returnSlot := exp.name ++ ":return"
    let ret := pickCandidate preds returnSlot a
    let lines := lines ++ ["  // @slot:" ++ returnSlot]
    let lineNo := lineNo + 1
    let slm := insertSLM slm returnSlot ⟨lineNo - 1, lineNo⟩
    let fnLine :=
      "  export function " ++ exp.name ++ "(" ++ joinArr ", " params ++ "): " ++ ret.type ++ ";"
    (lines ++ [fnLine], lineNo + 1, slm)

/-- Function `buildDtsFromPreds(preds, assignment)`: the full declaration text and the
slot-to-line map.  `lineNo` starts at 1 and is bumped once for the module
header before the loop. -/
def buildDtsFromPreds (preds : Preds) (a : Assignment) :
    String × List (String × LineInfo) :=
  let st0 := (["declare module \"" ++ preds.libName ++ "\" \x7b"], 2,
    ([] : List (String × LineInfo)))
  let st := preds.exports.foldl (buildStep preds a) st0
  (joinArr "\n" (st.1 ++ ["\x7d"]) ++ "\n", st.2.2)

/-! Section: Assignment evaluator with cache (`evalWithAssignment`) -/

/-- The raw observation of one external checker process run: exit code
(`none` when killed by a signal), captured stdout/stderr, timeout flag. -/
structure CheckRun where
  exitCode : Option Int
  stdout : String
  stderr : String
  timedOut : Bool
  deriving DecidableEq

/-- The external type-checker as an oracle: what one spawned run against a
given project directory with a given injected assignment observes.  Repeated
runs of the same assignment are already deduplicated by the cache, so a
functional oracle is faithful within one repair run. -/
abbrev Oracle := String → Assignment → CheckRun

/-- The CLI options the engine reads (`opts`). -/
structure Opts where
  topk : Nat
  trivialPenalty : ℚ
  maxIters : Nat
  headLines : Nat
  deriving DecidableEq

/-- Per-project environment of one repair run; `projectName` is derived from
the project path by `path.basename` in the main loop. -/
structure Env where
  projectPath : String
  projectName : String
  runDir : String
  opts : Opts
  deriving DecidableEq

/-- How the main loop builds the per-project environment
(`projectName = path.basename(projectPath)`). -/
def mkEnv (projectPath runDir : String) (opts : Opts) : Env :=
  { projectPath := projectPath, projectName := basename projectPath,
    runDir := runDir, opts := opts }

/-- One evaluation result record (the pure fields; `durationMs`, `logPath`
and the tsconfig-normalization flag are wall-clock/filesystem bookkeeping
and are not modelled). -/
structure EvalResult where
  project : String
  projectName : String
  status : String
  exitCode : Option Int
  errorCode : Option String
  stderrHead : Option String
  tsconfigPath : String
  condition : String
  libName : String
  injectedDtsPath : String
  injectionMode : String
  assignment : Assignment
  score : ℚ
  errorCount : Nat
  trivialCount : Nat
  slotLineMap : List (String × LineInfo)
  diagnostics : List Diagnostic
  fromCache : Bool
  phase : String
  deriving DecidableEq

/-- The body of `evalWithAssignment` past the cache check: synthesize, run
the checker, analyse its output, score. -/
def evalCore (oracle : Oracle) (env : Env) (preds : Preds) (logSuffix : String)
    (a : Assignment) : EvalResult :=
  let dtsPath := env.runDir ++ "/generated-dts/" ++ env.projectName ++ "/index.d.ts"
  let slotLineMap := (buildDtsFromPreds preds a).2
  let run := oracle env.projectPath a
  let combined := run.stderr ++ run.stdout
  let errorCode := firstErrorCode combined
  let status := classify run.exitCode errorCode run.timedOut
  let stderrHead :=
    if status = "success" then none else some (headLines combined env.opts.headLines)
  let diagnostics := parseDiagnostics combined env.projectPath
  let errorCount := countErrors combined
  let trivialCount := countTrivialSelected preds a
  let score :=
    computeScore status (some errorCount) (some trivialCount) (some env.opts.trivialPenalty)
  { project := env.projectPath
    projectName := env.projectName
    status := status
    exitCode := run.exitCode
    errorCode := if status = "success" then none else errorCode
    stderrHead := stderrHead
    tsconfigPath := env.projectPath ++ "/tsconfig.json"
    condition := "repair"
    libName := preds.libName
    injectedDtsPath := dtsPath
    injectionMode := "tsconfig.injected"
    assignment := a
    score := score
    errorCount := errorCount
    trivialCount := trivialCount
    slotLineMap := slotLineMap
    diagnostics := diagnostics
    fromCache := false
    phase := logSuffix }

/-- Mutable run-wide state: the memoization `Map` (association list in
insertion order) plus two ghost counters used only to state claims: how many
times the checker was actually spawned, and how many evaluation requests
were made. -/
structure RunState where
  cache : List (String × EvalResult)
  checkerCalls : Nat
  evalCalls : Nat
  deriving DecidableEq

/-- The initial state of one run (`const cache = new Map()`). -/
def RunState.empty : RunState := ⟨[], 0, 0⟩

/-- The canonical cache key:
`` `${projectName}|${assignmentKey(assignment)}|k=${opts.topk}|pen=${opts.trivialPenalty}` ``. -/
def evalKey (env : Env) (a : Assignment) : String :=
  env.projectName ++ "|" ++ assignmentKey a ++ "|k=" ++ toString env.opts.topk
    ++ "|pen=" ++ toString env.opts.trivialPenalty

/-- Function `evalWithAssignment`: return the memoized result marked `fromCache` on a
key hit, else evaluate, memoize and return.  `evalCalls`/`checkerCalls` are
ghost instrumentation observing the calls. -/
def evalWithAssignment (oracle : Oracle) (env : Env) (preds : Preds)
    (logSuffix : String) (a : Assignment) (st : RunState) : EvalResult × RunState :=
  let st := { st with evalCalls := st.evalCalls + 1 }
  let key := evalKey env a
  match List.lookup key st.cache with
  | some r => ({ r with fromCache := true }, st)
  | none =>
    let r := evalCore oracle env preds logSuffix a
    (r, { st with cache := st.cache ++ [(key, r)], checkerCalls := st.checkerCalls + 1 })

/-! Section: Repair search (`chooseSlotToFix`, `repairProject`) -/

/-- Pass 1 of `chooseSlotToFix`: first diagnostic pointing into the injected
declaration whose line matches a mapped declaration or marker-comment line
(`slotLineMap` keys in insertion order; a falsy — empty — found key does not
return). -/
def findDiagSlot (dtsPath : String) (slm : List (String × LineInfo)) :
    List Diagnostic → Option String
  | [] => none
  | d :: rest =>
    if dtsPath = "" then findDiagSlot dtsPath slm rest
    else if d.filePath ≠ dtsPath then findDiagSlot dtsPath slm rest
    else
      match slm.find? (fun p => p.2.declLine = d.line || p.2.commentLine = d.line) with
      | some p => if p.1 ≠ "" then some p.1 else findDiagSlot dtsPath slm rest
      | none => findDiagSlot dtsPath slm rest

/-- Order on confidence gaps under the JS comparator `a.gap - b.gap`:
`none` encodes the `+Infinity` gap of a single-candidate slot (`c1` read as
`-Infinity`); two infinite gaps compare as `NaN`, which `Array.sort` treats
as equal. -/
def gapLE : Option ℚ → Option ℚ → Bool
  | some x, some y => decide (x ≤ y)
  | some _, none => true
  | none, some _ => false
  | none, none => true

/-- Stable insertion into a gap-sorted list (insert before the first element
not strictly smaller), matching the stable `Array.prototype.sort`. -/
def insertGap (a : String × Option ℚ) :
    List (String × Option ℚ) → List (String × Option ℚ)
  | [] => [a]
  | y :: ys => if gapLE a.2 y.2 then a :: y :: ys else y :: insertGap a ys

/-- The sort `candidates.sort((a, b) => a.gap - b.gap)`: stable ascending sort. -/
def sortGaps (l : List (String × Option ℚ)) : List (String × Option ℚ) :=
  l.foldr insertGap []

/-- Function `chooseSlotToFix(current, preds, result)` (the third JS parameter is
unused): diagnostics pointing at the generated declaration first, then the
slot with the smallest confidence gap between its top two candidates. -/
def chooseSlotToFix (current : EvalResult) (preds : Preds) : Option String :=
  match findDiagSlot current.injectedDtsPath current.slotLineMap current.diagnostics with
  | some sid => some sid
  | none =>
    let gaps := preds.slots.map (fun s =>
      let c0 : ℚ := ((s.candidates.get? 0).map Candidate.score).getD 0
      ((s.slotId : String), (s.candidates.get? 1).map (fun c1 => c0 - c1.score)))
    ((sortGaps gaps).head?).map Prod.fst

/-- The inner `for (candIdx = 1; candIdx < k; candIdx++)` loop of
`repairProject` over the remaining alternative indices: evaluate a copy of
the current assignment with only the selected slot changed, keep the
strictly best, and stop as soon as the running best has status `success`.
The last component is a ghost trace of the indices actually evaluated. -/
def tryAlternatives (oracle : Oracle) (env : Env) (preds : Preds)
    (current : EvalResult) (slotId : String) :
    List Nat → EvalResult → Bool → RunState → EvalResult × Bool × RunState × List Nat
  | [], best, improved, st => (best, improved, st, [])
  | candIdx :: rest, best, improved, st =>
    let er := evalWithAssignment oracle env preds "repaired"
      (setIdx current.assignment slotId candIdx) st
    let r := er.1
    let bi := if r.score < best.score then (r, true) else (best, improved)
    if bi.1.status = "success" then (bi.1, bi.2, er.2, [candIdx])
    else
      let out := tryAlternatives oracle env preds current slotId rest bi.1 bi.2 er.2
      (out.1, out.2.1, out.2.2.1, candIdx :: out.2.2.2)

/-- The final per-project repair record: the last current evaluation,
whether repair succeeded, and the iteration count when it did. -/
structure RepairOut where
  base : EvalResult
  repaired : Bool
  iters : Option Nat
  deriving DecidableEq

/-- Operation `exhausted.add(slotId)` on the JS `Set`. -/
def exhaustedAdd (l : List String) (sid : String) : List String :=
  if sid ∈ l then l else l ++ [sid]

/-- The return executed after the loop ends (budget exhausted or `break`):
`{...current, phase: "repaired", repaired: current.status === "success"}`.
The last component is a ghost trace holding the final current result. -/
def loopExit (cur : EvalResult) (st : RunState) : RepairOut × RunState × List EvalResult :=
  (⟨{ cur with phase := "repaired" }, decide (cur.status = "success"), none⟩, st, [cur])

/-- The `for (let iter = 0; iter < maxIters; iter++)` search loop, by fuel
(`fuel = maxIters - iterDone`).  The third component of the result is a
ghost trace of the successive "current" results (one entry per iteration
entered, plus the final one), used only to state search invariants. -/
def repairLoop (oracle : Oracle) (env : Env) (preds : Preds) :
    Nat → Nat → EvalResult → List String → RunState →
    RepairOut × RunState × List EvalResult
  | 0, _, cur, _, st => loopExit cur st
  | fuel + 1, iterDone, cur, exhausted, st =>
    match chooseSlotToFix cur preds with
    | none => loopExit cur st
    | some slotId =>
      if slotId = "" ∨ slotId ∈ exhausted then loopExit cur st
      else
        let k := min env.opts.topk
          (((preds.slots.find? (fun s => s.slotId = slotId)).map
            (fun s => s.candidates.length)).getD 0)
        if k ≤ 1 then
          let out := repairLoop oracle env preds fuel (iterDone + 1) cur
            (exhaustedAdd exhausted slotId) st
          (out.1, out.2.1, cur :: out.2.2)
        else
          let ta := tryAlternatives oracle env preds cur slotId
            (List.range' 1 (k - 1)) cur false st
          if ta.1.status = "success" then
            (⟨{ ta.1 with phase := "repaired" }, true, some (iterDone + 1)⟩,
              ta.2.2.1, [cur, ta.1])
          else if ta.2.1 = false then
            let out := repairLoop oracle env preds fuel (iterDone + 1) cur
              (exhaustedAdd exhausted slotId) ta.2.2.1
            (out.1, out.2.1, cur :: out.2.2)
          else
            let out := repairLoop oracle env preds fuel (iterDone + 1) ta.1
              exhausted ta.2.2.1
            (out.1, out.2.1, cur :: out.2.2)

/-- Function `repairProject`: early return on a successful or non-type-error
baseline, else run the search loop from the baseline with an empty
exhausted set. -/
def repairProject (oracle : Oracle) (env : Env) (preds : Preds)
    (baseline : EvalResult) (st : RunState) : RepairOut × RunState × List EvalResult :=
  if baseline.status = "success" then
    (⟨{ baseline with phase := "repaired" }, true, none⟩, st, [baseline])
  else if baseline.status ≠ "type_error" then
    (⟨{ baseline with phase := "repaired" }, false, none⟩, st, [baseline])
  else
    repairLoop oracle env preds env.opts.maxIters 0 baseline [] st

/-- One project of the main loop's prediction path: evaluate the all-default
baseline, then repair. -/
def runRepair (oracle : Oracle) (env : Env) (preds : Preds) (st : RunState) :
    EvalResult × (RepairOut × RunState × List EvalResult) :=
  let be := evalWithAssignment oracle env preds "baseline" (initialAssignment preds) st
  (be.1, repairProject oracle env preds be.1 be.2)

/-! Section: Specification-side formulations referenced by claim statements -/

/-- The fixed trivial-type set named by the specification. -/
def trivialTypeList : List String := ["any", "Function", "any[]", "unknown", "object"]

/-- Specification-side trivial count: the number of slots whose assigned
candidate exists and whose type string, after trimming, is in the trivial
set. -/
def trivialSpecCount (preds : Preds) (a : Assignment) : Nat :=
  preds.slots.countP (fun s =>
    match s.candidates.get? (lookupIdx a s.slotId) with
    | some cand => decide (trimJS cand.type ∈ trivialTypeList)
    | none => false)

/-- Shape of an error-code token: `TS` followed by exactly four digits. -/
def tsShape : List Char → Bool
  | ['T', 'S', a, b, c, d] => isDigit a && isDigit b && isDigit c && isDigit d
  | _ => false

/-- The error-code pattern matches at position `j` of `l`. -/
def matchesAt (l : List Char) (j : Nat) : Bool := tsShape ((l.drop j).take 6)

/-- Specification-side first match: the token at the smallest position of
the output where the error-code pattern matches, if any. -/
def specFirstTS (l : List Char) : Option (List Char) :=
  ((List.range l.length).find? (fun j => matchesAt l j)).map
    (fun j => (l.drop j).take 6)

/-- Specification-side type substitution (claim C8 as amended): the assigned
candidate type string, with a fallback to `"any"` whenever the slot or the
candidate index is missing, or the candidate type string is empty. -/
def typeForSpec (preds : Preds) (a : Assignment) (sid : String) : String :=
  match preds.slots.find? (fun s => s.slotId = sid) with
  | some slot =>
    match slot.candidates.get? (lookupIdx a sid) with
    | some cand => if cand.type = "" then "any" else cand.type
    | none => "any"
  | none => "any"

/-- Specification-side parameter rendering of one function. -/
def specParams (preds : Preds) (a : Assignment) (name : String) :
    Nat → List String → List String
  | _, [] => []
  | i, p :: rest =>
    (p ++ ": " ++ typeForSpec preds a (name ++ ":param:" ++ toString i))
      :: specParams preds a name (i + 1) rest

/-- Specification-side rendering of one function export: its marker-comment
line and its declaration line. -/
def specFnLines (preds : Preds) (a : Assignment) (e : ExportSig) : List String :=
  ["  // @slot:" ++ (e.name ++ ":return"),
   "  export function " ++ e.name ++ "("
     ++ joinArr ", " (specParams preds a e.name 0 e.params)
     ++ "): " ++ typeForSpec preds a (e.name ++ ":return") ++ ";"]

/-- Specification-side full line list of the synthesized declaration. -/
def specDtsLines (preds : Preds) (a : Assignment) : List String :=
  ("declare module \"" ++ preds.libName ++ "\" \x7b")
    :: ((preds.exports.filter (fun e => e.kind = "function")).flatMap (specFnLines preds a)
        ++ ["\x7d"])

/-- The slot-to-line-map component of the synthesis fold, recursed with the
running line number (used to relate the fold to its specification). -/
def slmFold : List (String × LineInfo) → Nat → List ExportSig → List (String × LineInfo)
  | slm0, _, [] => slm0
  | slm0, n, e :: rest =>
    if e.kind ≠ "function" then slmFold slm0 n rest
    else slmFold (insertSLM slm0 (e.name ++ ":return") ⟨n, n + 1⟩) (n + 2) rest

/-! Section: Concrete instances used by witnesses and counterexamples -/

/-- Options with top-3 candidates and trivial penalty weight 5. -/
def tinyOpts : Opts := ⟨3, 5, 5, 5⟩

/-- Options with top-2 candidates and trivial penalty weight 0. -/
def zeroPenOpts : Opts := ⟨2, 0, 3, 5⟩

/-- A one-function project with one return slot whose alternatives include
the trivial `any` at index 1. -/
def predsC2 : Preds :=
  ⟨"libx", [⟨"function", "f", []⟩],
    [⟨"f:return", [⟨"string", 9⟩, ⟨"any", 5⟩, ⟨"number", 1⟩]⟩]⟩

/-- Oracle for which exactly the assignment selecting candidate index 1 of
slot `f:return` passes the check, and every other assignment produces one
type error. -/
def oracleC2 : Oracle := fun _ a =>
  if lookupIdx a "f:return" = 1 then ⟨some 0, "", "", false⟩
  else ⟨some 2, "src/a.ts(1,1): error TS2322: bad", "", false⟩

/-- Environment of the project used by the greedy-early-exit analysis. -/
def envC2 : Env := mkEnv "/w/projA" "/w/run" tinyOpts

/-- The baseline (all-default) evaluation of that project. -/
def curC2 : EvalResult :=
  evalCore oracleC2 envC2 predsC2 "baseline" (initialAssignment predsC2)

/-- A one-function project with one return slot and two candidates. -/
def predsC7 : Preds :=
  ⟨"liby", [⟨"function", "g", []⟩],
    [⟨"g:return", [⟨"string", 9⟩, ⟨"number", 5⟩]⟩]⟩

/-- Oracle failing every assignment with the same single type error. -/
def oracleC7 : Oracle := fun _ _ =>
  ⟨some 2, "src/b.ts(3,1): error TS2322: bad", "", false⟩

/-- Environment of the never-improving project. -/
def envC7 : Env := mkEnv "/w/projB" "/w/run" zeroPenOpts

/-- A prediction input whose only slot has a candidate with an empty type
string. -/
def predsC8 : Preds := ⟨"m", [⟨"function", "f", []⟩], [⟨"f:return", [⟨"", 1⟩]⟩]⟩

/-- Options with top-3 candidates and trivial penalty weight 0. -/
def optsC2z : Opts := ⟨3, 0, 5, 5⟩

/-- Environment of the early-exit project under the zero penalty weight. -/
def envC2z : Env := mkEnv "/w/projA" "/w/run" optsC2z

/-- The baseline (all-default) evaluation of that project under the zero
penalty weight. -/
def curC2z : EvalResult :=
  evalCore oracleC2 envC2z predsC2 "baseline" (initialAssignment predsC2)

/-- Cache invariant: every memoized result scores at least `B`. -/
def CacheGE (B : ℚ) (st : RunState) : Prop :=
  ∀ p ∈ st.cache, B ≤ p.2.score

/-- A baseline evaluation result carrying a configuration error. -/
def cexConfigBaseline : EvalResult :=
  { project := "/w/projB", projectName := "projB", status := "config_error",
    exitCode := some 1, errorCode := some "TS5083", stderrHead := some "boom",
    tsconfigPath := "/w/projB/tsconfig.json", condition := "repair",
    libName := "liby", injectedDtsPath := "/w/run/generated-dts/projB/index.d.ts",
    injectionMode := "tsconfig.injected", assignment := [("g:return", 0)],
    score := 9999, errorCount := 0, trivialCount := 0, slotLineMap := [],
    diagnostics := [], fromCache := false, phase := "baseline" }

/-! Section: Helper lemmas -/

/-- Lookup distributes over list append, preferring the left list. -/
theorem lookup_append_or {β : Type} (k : String) (l₁ l₂ : List (String × β)) :
    List.lookup k (l₁ ++ l₂) = (List.lookup k l₁).or (List.lookup k l₂) := by
  induction l₁ with
  | nil => simp [List.lookup]
  | cons p rest ih =>
    obtain ⟨k', v⟩ := p
    simp only [List.cons_append, List.lookup]
    cases hkk : k == k' with
    | true => simp
    | false => simpa using ih

/-- The boolean trivial-type test agrees with trimmed membership in the
fixed trivial set. -/
theorem isTrivialType_eq_mem (t : String) :
    isTrivialType t = decide (trimJS t ∈ trivialTypeList) := by
  unfold isTrivialType trivialTypeList
  rcases Decidable.em (trimJS t = "any") with h₁ | h₁ <;>
  rcases Decidable.em (trimJS t = "Function") with h₂ | h₂ <;>
  rcases Decidable.em (trimJS t = "any[]") with h₃ | h₃ <;>
  rcases Decidable.em (trimJS t = "unknown") with h₄ | h₄ <;>
  rcases Decidable.em (trimJS t = "object") with h₅ | h₅ <;>
  simp [h₁, h₂, h₃, h₄, h₅]

/-- The imperative trivial counter agrees with the specification count. -/
theorem countTrivialSelected_eq (preds : Preds) (a : Assignment) :
    countTrivialSelected preds a = trivialSpecCount preds a := by
  unfold countTrivialSelected trivialSpecCount
  have h : ∀ (l : List Slot) (n : Nat),
      l.foldl
        (fun c s =>
          match s.candidates.get? (lookupIdx a s.slotId) with
          | some cand => if isTrivialType cand.type then c + 1 else c
          | none => c) n
      = n + l.countP (fun s =>
          match s.candidates.get? (lookupIdx a s.slotId) with
          | some cand => decide (trimJS cand.type ∈ trivialTypeList)
          | none => false) := by
    intro l
    induction l with
    | nil => intro n; simp
    | cons s rest ih =>
      intro n
      simp only [List.foldl_cons, List.countP_cons]
      cases hc : s.candidates.get? (lookupIdx a s.slotId) with
      | none => simp only [hc]; rw [ih]; simp
      | some cand =>
        simp only [hc]
        by_cases hm : trimJS cand.type ∈ trivialTypeList
        · have hit : isTrivialType cand.type = true := by
            rw [isTrivialType_eq_mem]; exact decide_eq_true hm
          rw [hit, ih]
          simp [hm]
          omega
        · have hit : isTrivialType cand.type = false := by
            rw [isTrivialType_eq_mem]; exact decide_eq_false hm
          rw [hit, ih]
          simp [hm]
  simpa using h preds.slots 0

/-- Behavior of `evalWithAssignment` on a cache hit. -/
theorem evalWA_hit (oracle : Oracle) (env : Env) (preds : Preds) (s : String)
    (a : Assignment) (st : RunState) (r : EvalResult)
    (h : List.lookup (evalKey env a) st.cache = some r) :
    evalWithAssignment oracle env preds s a st =
      ({ r with fromCache := true }, { st with evalCalls := st.evalCalls + 1 }) := by
  unfold evalWithAssignment
  simp [h]

/-- Behavior of `evalWithAssignment` on a cache miss. -/
theorem evalWA_miss (oracle : Oracle) (env : Env) (preds : Preds) (s : String)
    (a : Assignment) (st : RunState)
    (h : List.lookup (evalKey env a) st.cache = none) :
    evalWithAssignment oracle env preds s a st =
      (evalCore oracle env preds s a,
        { cache := st.cache ++ [(evalKey env a, evalCore oracle env preds s a)],
          checkerCalls := st.checkerCalls + 1,
          evalCalls := st.evalCalls + 1 }) := by
  unfold evalWithAssignment
  simp [h]

/-! Section: Claim theorems -/

/-- C1: for every evaluation result, the derived score equals
`trivialPenaltyWeight * trivialCount` when the status is `success`, and
`errorCount + trivialPenaltyWeight * trivialCount` otherwise, where the
trivial count is the number of slots whose assigned candidate type string,
after trimming, is one of exactly `any`, `Function`, `any[]`, `unknown`,
`object`. -/
theorem score_formula (oracle : Oracle) (env : Env) (preds : Preds)
    (suffix : String) (a : Assignment) :
    (evalCore oracle env preds suffix a).score =
      if (evalCore oracle env preds suffix a).status = "success" then
        env.opts.trivialPenalty * (trivialSpecCount preds a : ℚ)
      else
        ((evalCore oracle env preds suffix a).errorCount : ℚ)
          + env.opts.trivialPenalty * (trivialSpecCount preds a : ℚ) := by
  simp only [evalCore, computeScore, Option.getD_some]
  rw [countTrivialSelected_eq]
  split <;> ring

/-- C3: evaluating the same assignment twice within one run spawns the
checker at most once; the key is the canonical
`projectName|assignment|k=topK|pen=weight` string, and the second call
returns the memoized result marked as cache-sourced with identical status
and score. -/
theorem cache_at_most_once (oracle : Oracle) (env : Env) (preds : Preds)
    (s₁ s₂ : String) (a : Assignment) (st : RunState) :
    evalKey env a =
      env.projectName ++ "|" ++ assignmentKey a ++ "|k=" ++ toString env.opts.topk
        ++ "|pen=" ++ toString env.opts.trivialPenalty ∧
    (evalWithAssignment oracle env preds s₂ a
        (evalWithAssignment oracle env preds s₁ a st).2).2.checkerCalls
      ≤ st.checkerCalls + 1 ∧
    (evalWithAssignment oracle env preds s₂ a
        (evalWithAssignment oracle env preds s₁ a st).2).1.fromCache = true ∧
    (evalWithAssignment oracle env preds s₂ a
        (evalWithAssignment oracle env preds s₁ a st).2).1.status =
      (evalWithAssignment oracle env preds s₁ a st).1.status ∧
    (evalWithAssignment oracle env preds s₂ a
        (evalWithAssignment oracle env preds s₁ a st).2).1.score =
      (evalWithAssignment oracle env preds s₁ a st).1.score := by
  refine ⟨rfl, ?_⟩
  cases hl : List.lookup (evalKey env a) st.cache with
  | some r =>
    rw [evalWA_hit oracle env preds s₁ a st r hl]
    rw [evalWA_hit oracle env preds s₂ a _ r (by simpa using hl)]
    exact ⟨Nat.le_succ _, rfl, rfl, rfl⟩
  | none =>
    rw [evalWA_miss oracle env preds s₁ a st hl]
    have hlook : List.lookup (evalKey env a)
        (st.cache ++ [(evalKey env a, evalCore oracle env preds s₁ a)]) =
          some (evalCore oracle env preds s₁ a) := by
      rw [lookup_append_or, hl]
      simp [List.lookup]
    rw [evalWA_hit oracle env preds s₂ a _ _ (by simpa using hlook)]
    exact ⟨Nat.le_refl _, rfl, rfl, rfl⟩

/-- C6: a baseline whose status is neither `success` nor `type_error`
(for example `config_error`) makes the repair step return immediately: the
baseline record is reported with `repaired: false` (only the phase label
changes) and the run state is untouched — no evaluation is even requested. -/
theorem nonrepairable_early_exit (oracle : Oracle) (env : Env) (preds : Preds)
    (baseline : EvalResult) (st : RunState)
    (h₁ : baseline.status ≠ "success") (h₂ : baseline.status ≠ "type_error") :
    repairProject oracle env preds baseline st =
      (⟨{ baseline with phase := "repaired" }, false, none⟩, st, [baseline]) := by
  unfold repairProject
  rw [if_neg h₁, if_pos h₂]

/-- Witness for C6 at a concrete configuration-error baseline. -/
theorem nonrepairable_early_exit_witness :
    cexConfigBaseline.status ≠ "success" ∧ cexConfigBaseline.status ≠ "type_error" ∧
    repairProject oracleC7 envC7 predsC7 cexConfigBaseline RunState.empty =
      (⟨{ cexConfigBaseline with phase := "repaired" }, false, none⟩,
        RunState.empty, [cexConfigBaseline]) :=
  ⟨by decide, by decide,
    nonrepairable_early_exit oracleC7 envC7 predsC7 cexConfigBaseline RunState.empty
      (by decide) (by decide)⟩

/-- C9: declaration synthesis is a pure function of the slot/candidate
structure and the assignment — two syntheses from equal inputs give
byte-identical text and the same slot-to-line map. -/
theorem synthesis_deterministic (p₁ p₂ : Preds) (a₁ a₂ : Assignment)
    (hp : p₁ = p₂) (ha : a₁ = a₂) :
    buildDtsFromPreds p₁ a₁ = buildDtsFromPreds p₂ a₂ := by
  rw [hp, ha]

/-- Witness for C9 at a concrete input. -/
theorem synthesis_deterministic_witness :
    predsC2 = predsC2 ∧ initialAssignment predsC2 = initialAssignment predsC2 ∧
    buildDtsFromPreds predsC2 (initialAssignment predsC2) =
      buildDtsFromPreds predsC2 (initialAssignment predsC2) :=
  ⟨rfl, rfl, synthesis_deterministic predsC2 predsC2 _ _ rfl rfl⟩

/-- C10: the cache key encodes the project only through the basename of its
path: two distinct project paths with equal basenames and equal assignment,
`topK` and penalty weight give equal keys, and the evaluation of the second
project returns the result memoized for the first project (marked as
cache-sourced, still carrying the first project path). -/
theorem cache_basename_collision (oracle : Oracle) (p₁ p₂ runDir : String)
    (opts : Opts) (preds : Preds) (s₁ s₂ : String) (a : Assignment) (st : RunState)
    (_hne : p₁ ≠ p₂) (hbase : basename p₁ = basename p₂)
    (hmiss : List.lookup (evalKey (mkEnv p₁ runDir opts) a) st.cache = none) :
    evalKey (mkEnv p₁ runDir opts) a = evalKey (mkEnv p₂ runDir opts) a ∧
    (evalWithAssignment oracle (mkEnv p₂ runDir opts) preds s₂ a
        (evalWithAssignment oracle (mkEnv p₁ runDir opts) preds s₁ a st).2).1 =
      { (evalWithAssignment oracle (mkEnv p₁ runDir opts) preds s₁ a st).1
          with fromCache := true } ∧
    (evalWithAssignment oracle (mkEnv p₂ runDir opts) preds s₂ a
        (evalWithAssignment oracle (mkEnv p₁ runDir opts) preds s₁ a st).2).1.project
      = p₁ := by
  have hkey : evalKey (mkEnv p₁ runDir opts) a = evalKey (mkEnv p₂ runDir opts) a := by
    simp only [evalKey, mkEnv, hbase]
  rw [evalWA_miss oracle (mkEnv p₁ runDir opts) preds s₁ a st hmiss]
  have hlook : List.lookup (evalKey (mkEnv p₂ runDir opts) a)
      (st.cache ++ [(evalKey (mkEnv p₁ runDir opts) a,
        evalCore oracle (mkEnv p₁ runDir opts) preds s₁ a)]) =
        some (evalCore oracle (mkEnv p₁ runDir opts) preds s₁ a) := by
    rw [← hkey, lookup_append_or, hmiss]
    simp [List.lookup]
  rw [evalWA_hit oracle (mkEnv p₂ runDir opts) preds s₂ a _ _ (by simpa using hlook)]
  exact ⟨hkey, rfl, rfl⟩

/-- Witness for C10 at two concrete distinct paths sharing a basename. -/
theorem cache_basename_collision_witness :
    ("/data/alpha/libx" : String) ≠ "/data/beta/libx" ∧
    basename "/data/alpha/libx" = basename "/data/beta/libx" ∧
    List.lookup (evalKey (mkEnv "/data/alpha/libx" "/w/run" tinyOpts) [("f:return", 0)])
      RunState.empty.cache = none ∧
    (evalWithAssignment oracleC2 (mkEnv "/data/beta/libx" "/w/run" tinyOpts) predsC2
        "repaired" [("f:return", 0)]
        (evalWithAssignment oracleC2 (mkEnv "/data/alpha/libx" "/w/run" tinyOpts) predsC2
          "baseline" [("f:return", 0)] RunState.empty).2).1.project
      = "/data/alpha/libx" :=
  ⟨by decide, by decide, rfl,
    (cache_basename_collision oracleC2 "/data/alpha/libx" "/data/beta/libx" "/w/run"
      tinyOpts predsC2 "baseline" "repaired" [("f:return", 0)] RunState.empty
      (by decide) (by decide) rfl).2.2⟩

/-- Search over maps by successor positions commutes with shifting the
predicate. -/
theorem find?_map_succ (p : Nat → Bool) (l : List Nat) :
    (l.map Nat.succ).find? p = (l.find? (fun j => p (j + 1))).map Nat.succ := by
  induction l with
  | nil => rfl
  | cons j rest ih =>
    by_cases h : p (j + 1)
    · simp [List.find?_cons, Nat.succ_eq_add_one, h]
    · simp [List.find?_cons, Nat.succ_eq_add_one, h, ih]

/-- Unfolding of the specification-side first match on a cons cell. -/
theorem specFirstTS_cons (x : Char) (t : List Char) :
    specFirstTS (x :: t) =
      if matchesAt (x :: t) 0 then some ((x :: t).take 6) else specFirstTS t := by
  unfold specFirstTS
  rw [List.length_cons, List.range_succ_eq_map]
  by_cases h : matchesAt (x :: t) 0
  · rw [List.find?_cons_of_pos _ (by simpa using h)]
    simp [h]
  · rw [List.find?_cons_of_neg _ (by simpa using h), if_neg h, find?_map_succ]
    have hm : (fun j => matchesAt (x :: t) (j + 1)) = fun j => matchesAt t j := by
      funext j
      simp [matchesAt]
    rw [hm]
    cases hf : (List.range t.length).find? (fun j => matchesAt t j) with
    | none => simp [hf]
    | some j => simp [hf, List.drop_succ_cons]

/-- Unfolding of the left-to-right scanner on a cons cell: it finds a match
at the head position or scans the tail. -/
theorem findTS_cons (x : Char) (t : List Char) :
    findTS (x :: t) =
      if matchesAt (x :: t) 0 then some ((x :: t).take 6) else findTS t := by
  conv_lhs => rw [findTS]
  split
  next a b c d heq =>
    have hm : matchesAt (x :: t) 0 = (isDigit a && isDigit b && isDigit c && isDigit d) := by
      unfold matchesAt
      rw [List.drop_zero, heq]
      rfl
    by_cases hd : (isDigit a && isDigit b && isDigit c && isDigit d) = true
    · rw [if_pos hd, if_pos (by rw [hm]; exact hd), heq]
    · rw [if_neg hd, if_neg (by rw [hm]; exact hd)]
  next hne =>
    have hm : matchesAt (x :: t) 0 = false := by
      unfold matchesAt
      rw [List.drop_zero]
      unfold tsShape
      split
      next a b c d heq2 => exact absurd heq2 (hne a b c d)
      next => rfl
    rw [if_neg (by simp [hm])]

/-- The scanner computes exactly the specification-side first match. -/
theorem findTS_eq_spec (l : List Char) : findTS l = specFirstTS l := by
  induction l with
  | nil =>
    rw [findTS.eq_def]
    simp [specFirstTS]
  | cons x t ih =>
    rw [findTS_cons, specFirstTS_cons, ih]

/-- Function `firstErrorCode` returns the first `TS` token of the output in
the specification-side sense. -/
theorem firstErrorCode_eq_spec (s : String) :
    firstErrorCode s = (specFirstTS s.data).map (fun l => (⟨l⟩ : String)) := by
  unfold firstErrorCode
  by_cases h : s = ""
  · subst h
    rfl
  · rw [if_neg h, findTS_eq_spec]

/-- C5: the status classification of every checker run follows this order:
timeout gives `other_error` regardless of exit code; exit code 0 gives
`success`; otherwise, when the first token of the combined output matching
the error-code pattern (`TS` followed by four digits) starts with `TS50` or
`TS180` the status is `config_error`; any other detected code gives
`type_error`; and no detectable code with a nonzero exit gives
`other_error`. -/
theorem status_classification (oracle : Oracle) (env : Env) (preds : Preds)
    (suffix : String) (a : Assignment) :
    (evalCore oracle env preds suffix a).status =
      (if (oracle env.projectPath a).timedOut then "other_error"
       else if (oracle env.projectPath a).exitCode = some 0 then "success"
       else
         match specFirstTS ((oracle env.projectPath a).stderr
             ++ (oracle env.projectPath a).stdout).data with
         | some code =>
           if List.isPrefixOf "TS50".data code || List.isPrefixOf "TS180".data code then
             "config_error"
           else "type_error"
         | none => "other_error") := by
  simp only [evalCore]
  unfold classify
  rw [firstErrorCode_eq_spec]
  cases hspec : specFirstTS ((oracle env.projectPath a).stderr
      ++ (oracle env.projectPath a).stdout).data with
  | none => simp
  | some code => simp [isConfigCode]

/-- The running best of the inner alternatives loop either stays at the
reference result or strictly improves on its score. -/
theorem tryAlternatives_best_le (oracle : Oracle) (env : Env) (preds : Preds)
    (current : EvalResult) (slotId : String) (cur0 : EvalResult) :
    ∀ (l : List Nat) (best : EvalResult) (improved : Bool) (st : RunState),
      (best = cur0 ∨ best.score < cur0.score) →
      ((tryAlternatives oracle env preds current slotId l best improved st).1 = cur0 ∨
        (tryAlternatives oracle env preds current slotId l best improved st).1.score
          < cur0.score) := by
  intro l
  induction l with
  | nil =>
    intro best improved st h
    simpa only [tryAlternatives] using h
  | cons i rest ih =>
    intro best improved st h
    simp only [tryAlternatives]
    by_cases hlt : (evalWithAssignment oracle env preds "repaired"
        (setIdx current.assignment slotId i) st).1.score < best.score
    · rw [if_pos hlt]
      have h' : (evalWithAssignment oracle env preds "repaired"
            (setIdx current.assignment slotId i) st).1 = cur0 ∨
          (evalWithAssignment oracle env preds "repaired"
            (setIdx current.assignment slotId i) st).1.score < cur0.score := by
        rcases h with rfl | hless
        · exact Or.inr hlt
        · exact Or.inr (lt_trans hlt hless)
      split
      · exact h'
      · exact ih _ _ _ h'
    · rw [if_neg hlt]
      split
      · exact h
      · exact ih _ _ _ h

/-- The ghost trace of the search loop always starts at the current result
it was entered with. -/
theorem repairLoop_trace_head (oracle : Oracle) (env : Env) (preds : Preds) :
    ∀ (fuel iterDone : Nat) (cur : EvalResult) (exhausted : List String) (st : RunState),
      (repairLoop oracle env preds fuel iterDone cur exhausted st).2.2.head? = some cur := by
  intro fuel
  cases fuel with
  | zero =>
    intro iterDone cur exh st
    rfl
  | succ fuel =>
    intro iterDone cur exh st
    simp only [repairLoop]
    split
    · rfl
    · split
      · rfl
      · split
        · rfl
        · split
          · rfl
          · split
            · rfl
            · rfl

/-- Every ghost trace of the search loop steps only between equal results or
strictly improving scores. -/
theorem repairLoop_chain (oracle : Oracle) (env : Env) (preds : Preds) :
    ∀ (fuel iterDone : Nat) (cur : EvalResult) (exhausted : List String) (st : RunState),
      List.Chain' (fun a b => b = a ∨ b.score < a.score)
        (repairLoop oracle env preds fuel iterDone cur exhausted st).2.2 := by
  intro fuel
  induction fuel with
  | zero =>
    intro iterDone cur exh st
    simp [repairLoop, loopExit]
  | succ fuel ih =>
    intro iterDone cur exh st
    simp only [repairLoop]
    split
    · simp [loopExit]
    · split
      · simp [loopExit]
      · split
        · refine List.chain'_cons'.mpr ⟨?_, ih _ _ _ _⟩
          intro b hb
          rw [repairLoop_trace_head] at hb
          simp only [Option.mem_def, Option.some.injEq] at hb
          exact Or.inl hb.symm
        · split
          · refine List.chain'_pair.mpr ?_
            exact tryAlternatives_best_le oracle env preds cur _ cur _ cur false st
              (Or.inl rfl)
          · split
            · refine List.chain'_cons'.mpr ⟨?_, ih _ _ _ _⟩
              intro b hb
              rw [repairLoop_trace_head] at hb
              simp only [Option.mem_def, Option.some.injEq] at hb
              exact Or.inl hb.symm
            · refine List.chain'_cons'.mpr ⟨?_, ih _ _ _ _⟩
              intro b hb
              rw [repairLoop_trace_head] at hb
              simp only [Option.mem_def, Option.some.injEq] at hb
              subst hb
              exact tryAlternatives_best_le oracle env preds cur _ cur _ cur false st
                (Or.inl rfl)

/-- C4: across the iterations of one repair run, the sequence of "current"
results moves only by keeping the same result or adopting one with a
strictly lower score; in particular the score sequence is non-increasing and
the search never moves to a strictly worse assignment. -/
theorem monotonic_acceptance (oracle : Oracle) (env : Env) (preds : Preds)
    (baseline : EvalResult) (st : RunState) :
    List.Chain' (fun a b => b = a ∨ b.score < a.score)
      (repairProject oracle env preds baseline st).2.2 ∧
    List.Chain' (fun a b => b.score ≤ a.score)
      (repairProject oracle env preds baseline st).2.2 := by
  have h1 : List.Chain' (fun a b => b = a ∨ b.score < a.score)
      (repairProject oracle env preds baseline st).2.2 := by
    unfold repairProject
    split
    · simp
    · split
      · simp
      · exact repairLoop_chain oracle env preds _ _ _ _ _
  refine ⟨h1, List.Chain'.imp ?_ h1⟩
  rintro a b (rfl | hlt)
  · exact le_refl _
  · exact le_of_lt hlt

/-- A successful lookup returns an entry of the list. -/
theorem lookup_mem {β : Type} {k : String} {v : β} :
    ∀ {l : List (String × β)}, List.lookup k l = some v → (k, v) ∈ l := by
  intro l
  induction l with
  | nil =>
    intro h
    simp [List.lookup] at h
  | cons p rest ih =>
    intro h
    obtain ⟨k', v'⟩ := p
    simp only [List.lookup] at h
    cases hkk : k == k' with
    | true =>
      rw [hkk] at h
      simp only [Option.some.injEq] at h
      subst h
      have : k = k' := by simpa using hkk
      subst this
      exact List.mem_cons_self _ _
    | false =>
      rw [hkk] at h
      exact List.mem_cons_of_mem _ (ih h)

/-- One evaluation under the cache invariant scores at least `B` whenever
the fresh evaluation of its assignment would, and it preserves the
invariant. -/
theorem evalWA_score_ge (oracle : Oracle) (env : Env) (preds : Preds) (s : String)
    (a : Assignment) (st : RunState) (B : ℚ)
    (hcache : CacheGE B st)
    (hfresh : B ≤ (evalCore oracle env preds s a).score) :
    B ≤ (evalWithAssignment oracle env preds s a st).1.score ∧
      CacheGE B (evalWithAssignment oracle env preds s a st).2 := by
  cases hl : List.lookup (evalKey env a) st.cache with
  | some r =>
    rw [evalWA_hit oracle env preds s a st r hl]
    refine ⟨hcache _ (lookup_mem hl), ?_⟩
    intro p hp
    exact hcache p hp
  | none =>
    rw [evalWA_miss oracle env preds s a st hl]
    refine ⟨hfresh, ?_⟩
    intro p hp
    rcases List.mem_append.mp hp with h | h
    · exact hcache p h
    · simp only [List.mem_singleton] at h
      subst h
      exact hfresh

/-- When no alternative of the selected slot freshly scores below the
current score, the inner loop keeps the current result as best, reports no
improvement, and preserves the cache invariant. -/
theorem tryAlternatives_stuck (oracle : Oracle) (env : Env) (preds : Preds)
    (cur : EvalResult) (slotId : String)
    (hstat : cur.status = "type_error")
    (hge : ∀ i, 1 ≤ i → cur.score ≤ (evalCore oracle env preds "repaired"
      (setIdx cur.assignment slotId i)).score) :
    ∀ (l : List Nat), (∀ i ∈ l, 1 ≤ i) → ∀ (st : RunState), CacheGE cur.score st →
      (tryAlternatives oracle env preds cur slotId l cur false st).1 = cur ∧
      (tryAlternatives oracle env preds cur slotId l cur false st).2.1 = false ∧
      CacheGE cur.score (tryAlternatives oracle env preds cur slotId l cur false st).2.2.1 := by
  intro l
  induction l with
  | nil =>
    intro hmem st hc
    exact ⟨rfl, rfl, hc⟩
  | cons i rest ih =>
    intro hmem st hc
    have hi : 1 ≤ i := hmem i (List.mem_cons_self _ _)
    have hwa := evalWA_score_ge oracle env preds "repaired"
      (setIdx cur.assignment slotId i) st cur.score hc (hge i hi)
    simp only [tryAlternatives]
    rw [if_neg (not_lt.mpr hwa.1)]
    rw [if_neg (by rw [hstat]; decide)]
    exact ih (fun j hj => hmem j (List.mem_cons_of_mem _ hj)) _ hwa.2

/-- When no alternative of any slot freshly scores below the current score
and the current status is a type error, the whole search loop ends with the
current result unchanged and `repaired: false`. -/
theorem repairLoop_stuck (oracle : Oracle) (env : Env) (preds : Preds)
    (cur : EvalResult)
    (hstat : cur.status = "type_error")
    (hge : ∀ sid i, 1 ≤ i → cur.score ≤ (evalCore oracle env preds "repaired"
      (setIdx cur.assignment sid i)).score) :
    ∀ (fuel iterDone : Nat) (exh : List String) (st : RunState), CacheGE cur.score st →
      (repairLoop oracle env preds fuel iterDone cur exh st).1 =
        ⟨{ cur with phase := "repaired" }, false, none⟩ := by
  intro fuel
  induction fuel with
  | zero =>
    intro iterDone exh st hc
    simp [repairLoop, loopExit, hstat]
  | succ fuel ih =>
    intro iterDone exh st hc
    simp only [repairLoop]
    split
    · simp [loopExit, hstat]
    · split
      · simp [loopExit, hstat]
      · split
        · exact ih _ _ _ hc
        · rename_i sid hopt hbrk hk
          have hta := tryAlternatives_stuck oracle env preds cur sid hstat (hge sid)
            (List.range' 1 (min env.opts.topk
              (((preds.slots.find? (fun s => s.slotId = sid)).map
                (fun s => s.candidates.length)).getD 0) - 1))
            (fun j hj => (List.mem_range'_1.mp hj).1) st hc
          split
          · rename_i hsucc
            rw [hta.1, hstat] at hsucc
            exact absurd hsucc (by decide)
          · split
            · exact ih _ _ _ hta.2.2
            · rename_i hnimp
              exact absurd hta.2.1 hnimp

/-- C7: when the baseline of a run is a type error and no single-slot
alternative of the all-default assignment ever freshly scores strictly below
the baseline score, the repair search (bounded by `maxIters` iterations by
construction) reports `repaired: false` and a final assignment identical to
the all-default baseline assignment. -/
theorem exhaustion_termination (oracle : Oracle) (env : Env) (preds : Preds)
    (hb : (runRepair oracle env preds RunState.empty).1.status = "type_error")
    (hmono : ∀ sid i, 1 ≤ i →
      (runRepair oracle env preds RunState.empty).1.score ≤
        (evalCore oracle env preds "repaired"
          (setIdx (initialAssignment preds) sid i)).score) :
    (runRepair oracle env preds RunState.empty).2.1.repaired = false ∧
    (runRepair oracle env preds RunState.empty).2.1.base.assignment
      = initialAssignment preds := by
  have hmiss : List.lookup (evalKey env (initialAssignment preds))
      RunState.empty.cache = none := rfl
  have hbase : (runRepair oracle env preds RunState.empty).1
      = evalCore oracle env preds "baseline" (initialAssignment preds) := by
    simp only [runRepair]
    rw [evalWA_miss oracle env preds _ _ _ hmiss]
  have hstate : (runRepair oracle env preds RunState.empty).2
      = repairProject oracle env preds
          (evalCore oracle env preds "baseline" (initialAssignment preds))
          { cache := RunState.empty.cache ++ [(evalKey env (initialAssignment preds),
              evalCore oracle env preds "baseline" (initialAssignment preds))],
            checkerCalls := RunState.empty.checkerCalls + 1,
            evalCalls := RunState.empty.evalCalls + 1 } := by
    simp only [runRepair]
    rw [evalWA_miss oracle env preds _ _ _ hmiss]
  rw [hbase] at hb hmono
  have hassign : (evalCore oracle env preds "baseline" (initialAssignment preds)).assignment
      = initialAssignment preds := rfl
  have hrl := repairLoop_stuck oracle env preds
    (evalCore oracle env preds "baseline" (initialAssignment preds)) hb
    (by rw [hassign]; exact hmono)
    env.opts.maxIters 0 []
    { cache := RunState.empty.cache ++ [(evalKey env (initialAssignment preds),
        evalCore oracle env preds "baseline" (initialAssignment preds))],
      checkerCalls := RunState.empty.checkerCalls + 1,
      evalCalls := RunState.empty.evalCalls + 1 }
    (by
      intro p hp
      simp only [RunState.empty, List.nil_append, List.mem_singleton] at hp
      subst hp
      exact le_refl _)
  have hrp : repairProject oracle env preds
      (evalCore oracle env preds "baseline" (initialAssignment preds))
      { cache := RunState.empty.cache ++ [(evalKey env (initialAssignment preds),
          evalCore oracle env preds "baseline" (initialAssignment preds))],
        checkerCalls := RunState.empty.checkerCalls + 1,
        evalCalls := RunState.empty.evalCalls + 1 }
      = repairLoop oracle env preds env.opts.maxIters 0
          (evalCore oracle env preds "baseline" (initialAssignment preds)) []
          { cache := RunState.empty.cache ++ [(evalKey env (initialAssignment preds),
              evalCore oracle env preds "baseline" (initialAssignment preds))],
            checkerCalls := RunState.empty.checkerCalls + 1,
            evalCalls := RunState.empty.evalCalls + 1 } := by
    unfold repairProject
    rw [if_neg (by rw [hb]; decide), if_neg (fun hcon => hcon hb)]
  constructor
  · rw [hstate, hrp, hrl]
  · rw [hstate, hrp, hrl]
    exact hassign

/-- Every evaluation of the never-improving concrete project scores 1: the
oracle always reports the same single type error and the penalty weight is
zero. -/
theorem evalCoreC7_score (s : String) (a : Assignment) :
    (evalCore oracleC7 envC7 predsC7 s a).score = 1 := by
  have hcl : classify (some 2)
      (firstErrorCode "src/b.ts(3,1): error TS2322: bad") false = "type_error" := by
    decide
  have hec : countErrors "src/b.ts(3,1): error TS2322: bad" = 1 := by
    decide
  simp only [evalCore, oracleC7, envC7, mkEnv, zeroPenOpts]
  simp [hcl, hec, computeScore]

/-- Witness for C7 at the concrete never-improving type-error project. -/
theorem exhaustion_termination_witness :
    (runRepair oracleC7 envC7 predsC7 RunState.empty).1.status = "type_error" ∧
    ((runRepair oracleC7 envC7 predsC7 RunState.empty).2.1.repaired = false ∧
      (runRepair oracleC7 envC7 predsC7 RunState.empty).2.1.base.assignment
        = initialAssignment predsC7) :=
  ⟨by decide,
    exhaustion_termination oracleC7 envC7 predsC7 (by decide)
      (fun sid i _ => by
        rw [show (runRepair oracleC7 envC7 predsC7 RunState.empty).1
            = evalCore oracleC7 envC7 predsC7 "baseline" (initialAssignment predsC7) from rfl,
          evalCoreC7_score, evalCoreC7_score])⟩

/-- C2 (as amended): in a repair iteration, when the next alternative
candidate evaluates to status `success` with a score strictly lower than the
running best (so it is accepted as the new best), no further alternative
candidates for that slot are evaluated in that iteration. -/
theorem greedy_early_exit (oracle : Oracle) (env : Env) (preds : Preds)
    (current : EvalResult) (slotId : String) (i : Nat) (rest : List Nat)
    (best : EvalResult) (improved : Bool) (st : RunState)
    (hs : (evalWithAssignment oracle env preds "repaired"
        (setIdx current.assignment slotId i) st).1.status = "success")
    (him : (evalWithAssignment oracle env preds "repaired"
        (setIdx current.assignment slotId i) st).1.score < best.score) :
    (tryAlternatives oracle env preds current slotId (i :: rest) best improved st).2.2.2
      = [i] := by
  simp only [tryAlternatives]
  rw [if_pos him]
  rw [if_pos hs]

/-- The baseline of the early-exit project has a type error. -/
theorem curC2_status : curC2.status = "type_error" := by decide

/-- The baseline of the early-exit project scores 1 (one error, no trivial
candidate selected, penalty weight 5). -/
theorem curC2_score : curC2.score = 1 := by
  have h0 : ¬(lookupIdx (initialAssignment predsC2) "f:return" = 1) := by decide
  have hcl : classify (some 2) (firstErrorCode "src/a.ts(1,1): error TS2322: bad") false
      = "type_error" := by decide
  have hec : countErrors "src/a.ts(1,1): error TS2322: bad" = 1 := by decide
  have hct : countTrivialSelected predsC2 (initialAssignment predsC2) = 0 := by decide
  simp only [curC2, evalCore, oracleC2, envC2, mkEnv, tinyOpts, h0]
  simp [hcl, hec, hct, computeScore]

/-- Alternative index 1 (the trivial `any`) passes the check. -/
theorem evalC2_alt1_status : (evalCore oracleC2 envC2 predsC2 "repaired"
    (setIdx (initialAssignment predsC2) "f:return" 1)).status = "success" := by
  decide

/-- Alternative index 1 scores 5: success with one trivial candidate under
penalty weight 5. -/
theorem evalC2_alt1_score : (evalCore oracleC2 envC2 predsC2 "repaired"
    (setIdx (initialAssignment predsC2) "f:return" 1)).score = 5 := by
  have h1 : lookupIdx (setIdx (initialAssignment predsC2) "f:return" 1) "f:return" = 1 := by
    decide
  have hcl : classify (some 0) (firstErrorCode "") false = "success" := by decide
  have hec : countErrors "" = 0 := by decide
  have hct : countTrivialSelected predsC2 (setIdx (initialAssignment predsC2) "f:return" 1)
      = 1 := by decide
  simp only [evalCore, oracleC2, envC2, mkEnv, tinyOpts, h1]
  simp [hcl, hec, hct, computeScore]

/-- Alternative index 2 fails with one error and scores 1. -/
theorem evalC2_alt2_score : (evalCore oracleC2 envC2 predsC2 "repaired"
    (setIdx (initialAssignment predsC2) "f:return" 2)).score = 1 := by
  have h2 : ¬(lookupIdx (setIdx (initialAssignment predsC2) "f:return" 2) "f:return" = 1) := by
    decide
  have hcl : classify (some 2) (firstErrorCode "src/a.ts(1,1): error TS2322: bad") false
      = "type_error" := by decide
  have hec : countErrors "src/a.ts(1,1): error TS2322: bad" = 1 := by decide
  have hct : countTrivialSelected predsC2 (setIdx (initialAssignment predsC2) "f:return" 2)
      = 0 := by decide
  simp only [evalCore, oracleC2, envC2, mkEnv, tinyOpts, h2]
  simp [hcl, hec, hct, computeScore]

/-- Counterexample to C2 as stated: in the iteration whose selected slot is
`f:return`, the alternative at index 1 evaluates to `success`, yet the
alternative at index 2 is still evaluated afterwards — the inner loop only
stops when the success strictly improves the running best, and here the
trivial penalty keeps the successful score (5) above the current score (1). -/
theorem greedy_early_exit_cex :
    (evalWithAssignment oracleC2 envC2 predsC2 "repaired"
        (setIdx curC2.assignment "f:return" 1) RunState.empty).1.status = "success" ∧
    (tryAlternatives oracleC2 envC2 predsC2 curC2 "f:return" (List.range' 1 2)
        curC2 false RunState.empty).2.2.2 = [1, 2] := by
  constructor
  · rw [evalWA_miss oracleC2 envC2 predsC2 "repaired" _ RunState.empty rfl]
    exact evalC2_alt1_status
  · have hrange : List.range' 1 2 = [1, 2] := rfl
    rw [hrange]
    simp only [tryAlternatives]
    rw [evalWA_miss oracleC2 envC2 predsC2 "repaired" _ RunState.empty rfl]
    have hn1 : ¬((evalCore oracleC2 envC2 predsC2 "repaired"
        (setIdx curC2.assignment "f:return" 1)).score < curC2.score) := by
      rw [show (evalCore oracleC2 envC2 predsC2 "repaired"
          (setIdx curC2.assignment "f:return" 1)).score = 5 from evalC2_alt1_score,
        curC2_score]
      norm_num
    rw [if_neg hn1]
    rw [if_neg (show ¬(curC2.status = "success") from by rw [curC2_status]; decide)]
    rw [evalWA_miss oracleC2 envC2 predsC2 "repaired" _ _ (by decide)]
    have hn2 : ¬((evalCore oracleC2 envC2 predsC2 "repaired"
        (setIdx curC2.assignment "f:return" 2)).score < curC2.score) := by
      rw [show (evalCore oracleC2 envC2 predsC2 "repaired"
          (setIdx curC2.assignment "f:return" 2)).score = 1 from evalC2_alt2_score,
        curC2_score]
      norm_num
    rw [if_neg hn2]
    rw [if_neg (show ¬(curC2.status = "success") from by rw [curC2_status]; decide)]

/-- Score of alternative index 1 under the zero penalty weight: 0. -/
theorem evalC2z_alt1_score : (evalWithAssignment oracleC2 envC2z predsC2 "repaired"
    (setIdx curC2z.assignment "f:return" 1) RunState.empty).1.score = 0 := by
  rw [evalWA_miss oracleC2 envC2z predsC2 "repaired" _ RunState.empty rfl,
    show curC2z.assignment = initialAssignment predsC2 from rfl]
  have h1 : lookupIdx (setIdx (initialAssignment predsC2) "f:return" 1) "f:return" = 1 := by
    decide
  have hcl : classify (some 0) (firstErrorCode "") false = "success" := by decide
  simp only [evalCore, oracleC2, envC2z, mkEnv, optsC2z, h1]
  simp [hcl, computeScore]

/-- Baseline score under the zero penalty weight: 1. -/
theorem curC2z_score : curC2z.score = 1 := by
  have h0 : ¬(lookupIdx (initialAssignment predsC2) "f:return" = 1) := by decide
  have hcl : classify (some 2) (firstErrorCode "src/a.ts(1,1): error TS2322: bad") false
      = "type_error" := by decide
  have hec : countErrors "src/a.ts(1,1): error TS2322: bad" = 1 := by decide
  simp only [curC2z, evalCore, oracleC2, envC2z, mkEnv, optsC2z, h0]
  simp [hcl, hec, computeScore]

/-- Witness for the amended C2: under a zero penalty weight the successful
alternative at index 1 strictly improves the running best, and then index 2
is not evaluated. -/
theorem greedy_early_exit_witness :
    (evalWithAssignment oracleC2 envC2z predsC2 "repaired"
        (setIdx curC2z.assignment "f:return" 1) RunState.empty).1.status = "success" ∧
    (evalWithAssignment oracleC2 envC2z predsC2 "repaired"
        (setIdx curC2z.assignment "f:return" 1) RunState.empty).1.score < curC2z.score ∧
    (tryAlternatives oracleC2 envC2z predsC2 curC2z "f:return" (1 :: [2]) curC2z false
        RunState.empty).2.2.2 = [1] :=
  ⟨by decide,
   by rw [evalC2z_alt1_score, curC2z_score]; norm_num,
   greedy_early_exit oracleC2 envC2z predsC2 curC2z "f:return" 1 [2] curC2z false
     RunState.empty (by decide)
     (by rw [evalC2z_alt1_score, curC2z_score]; norm_num)⟩

/-- The picked candidate type equals the specification-side substitution. -/
theorem pickCandidate_type (preds : Preds) (a : Assignment) (sid : String) :
    (pickCandidate preds sid a).type = typeForSpec preds a sid := by
  unfold pickCandidate typeForSpec
  cases preds.slots.find? (fun s => s.slotId = sid) with
  | none => rfl
  | some slot =>
    show (match slot.candidates.get? (lookupIdx a sid) with
        | some cand => if cand.type = "" then ({ type := "any", score := 0 } : Candidate) else cand
        | none => ({ type := "any", score := 0 } : Candidate)).type
      = (match slot.candidates.get? (lookupIdx a sid) with
        | some cand => if cand.type = "" then "any" else cand.type
        | none => "any")
    cases slot.candidates.get? (lookupIdx a sid) with
    | none => rfl
    | some cand =>
      show (if cand.type = "" then ({ type := "any", score := 0 } : Candidate) else cand).type
        = (if cand.type = "" then "any" else cand.type)
      by_cases h : cand.type = ""
      · rw [if_pos h, if_pos h]
      · rw [if_neg h, if_neg h]

/-- The parameter rendering agrees with its specification-side rendering. -/
theorem renderParams_eq_spec (preds : Preds) (a : Assignment) (name : String) :
    ∀ (i : Nat) (ps : List String),
      renderParams preds a name i ps = specParams preds a name i ps := by
  intro i ps
  induction ps generalizing i with
  | nil => rfl
  | cons p rest ih =>
    simp only [renderParams, specParams, pickCandidate_type]
    rw [ih]

/-- One function-kind loop step appends exactly the two specification lines
and registers the return slot at the current line pair. -/
theorem buildStep_fn (preds : Preds) (a : Assignment) (lines0 : List String)
    (n0 : Nat) (m0 : List (String × LineInfo)) (e : ExportSig)
    (hk : e.kind = "function") :
    buildStep preds a (lines0, n0, m0) e =
      (lines0 ++ specFnLines preds a e, n0 + 2,
        insertSLM m0 (e.name ++ ":return") ⟨n0, n0 + 1⟩) := by
  unfold buildStep
  rw [if_neg (by simp [hk])]
  simp only [renderParams_eq_spec, pickCandidate_type, specFnLines]
  simp [List.append_assoc]

/-- A non-function loop step leaves the state unchanged. -/
theorem buildStep_skip (preds : Preds) (a : Assignment)
    (st : List String × Nat × List (String × LineInfo)) (e : ExportSig)
    (hk : ¬(e.kind = "function")) :
    buildStep preds a st e = st := by
  unfold buildStep
  rw [if_pos hk]

/-- The synthesis fold appends the specification lines of every
function-kind export and accumulates the slot-to-line entries with the
running line number. -/
theorem buildDts_fold (preds : Preds) (a : Assignment) :
    ∀ (exps : List ExportSig) (lines0 : List String) (n0 : Nat)
      (m0 : List (String × LineInfo)),
      exps.foldl (buildStep preds a) (lines0, n0, m0) =
        (lines0 ++ (exps.filter (fun e => e.kind = "function")).flatMap
            (specFnLines preds a),
          n0 + 2 * (exps.filter (fun e => e.kind = "function")).length,
          slmFold m0 n0 exps) := by
  intro exps
  induction exps with
  | nil =>
    intro lines0 n0 m0
    simp [slmFold]
  | cons e rest ih =>
    intro lines0 n0 m0
    simp only [List.foldl_cons]
    by_cases hk : e.kind = "function"
    · rw [buildStep_fn preds a lines0 n0 m0 e hk, ih]
      have hslm : slmFold m0 n0 (e :: rest) =
          slmFold (insertSLM m0 (e.name ++ ":return") ⟨n0, n0 + 1⟩) (n0 + 2) rest := by
        simp only [slmFold]
        rw [if_neg (by simp [hk])]
      rw [hslm, Prod.ext_iff, Prod.ext_iff]
      refine ⟨?_, ?_, ?_⟩
      · simp [List.filter_cons, hk, List.append_assoc]
      · simp [List.filter_cons, hk]
        ring
      · rfl
    · rw [buildStep_skip preds a _ e hk, ih]
      have hslm : slmFold m0 n0 (e :: rest) = slmFold m0 n0 rest := by
        simp only [slmFold]
        rw [if_pos hk]
      rw [hslm]
      simp [List.filter_cons, hk]

/-- Lookup on a cons cell as a conditional. -/
theorem lookup_cons_eq {β : Type} (sid x : String) (w : β) (l : List (String × β)) :
    List.lookup sid ((x, w) :: l) = if sid == x then some w else List.lookup sid l := by
  cases h : sid == x with
  | true => simp [List.lookup, h]
  | false => simp [List.lookup, h]

/-- Lookup success is unchanged by an in-place value update. -/
theorem lookup_map_update (k : String) (v : LineInfo) (sid : String) :
    ∀ (m : List (String × LineInfo)),
      (List.lookup sid (m.map (fun p => if p.1 = k then (k, v) else p))).isSome
        = (List.lookup sid m).isSome := by
  intro m
  induction m with
  | nil => rfl
  | cons p rest ih =>
    obtain ⟨k', v'⟩ := p
    simp only [List.map_cons]
    by_cases hkk : k' = k
    · subst hkk
      rw [if_pos rfl, lookup_cons_eq, lookup_cons_eq]
      cases hsk : sid == k' with
      | true => simp [hsk]
      | false => simp [hsk, ih]
    · rw [if_neg (show ¬((k', v').1 = k) from hkk), lookup_cons_eq, lookup_cons_eq]
      cases hsk : sid == k' with
      | true => simp [hsk]
      | false => simp [hsk, ih]

/-- Lookup success after a JS object property assignment. -/
theorem insertSLM_lookup (m : List (String × LineInfo)) (k : String)
    (v : LineInfo) (sid : String) :
    (List.lookup sid (insertSLM m k v)).isSome
      ↔ (List.lookup sid m).isSome ∨ sid = k := by
  unfold insertSLM
  by_cases hin : (List.lookup k m).isSome
  · rw [if_pos hin, lookup_map_update]
    constructor
    · exact Or.inl
    · rintro (h | rfl)
      · exact h
      · exact hin
  · rw [if_neg hin, lookup_append_or]
    cases hl : List.lookup sid m with
    | some r => simp
    | none =>
      cases hsk : sid == k with
      | true =>
        have hk2 : sid = k := by simpa using hsk
        simp [List.lookup, hsk, hk2]
      | false =>
        have hk2 : ¬(sid = k) := by simpa using hsk
        simp [List.lookup, hsk, hk2]

/-- Lookup success in the accumulated slot-to-line map characterizes the
return-slot names of the function-kind exports. -/
theorem slmFold_lookup (sid : String) :
    ∀ (exps : List ExportSig) (m0 : List (String × LineInfo)) (n : Nat),
      (List.lookup sid (slmFold m0 n exps)).isSome
        ↔ (List.lookup sid m0).isSome ∨
          sid ∈ (exps.filter (fun e => e.kind = "function")).map
            (fun e => e.name ++ ":return") := by
  intro exps
  induction exps with
  | nil =>
    intro m0 n
    simp [slmFold]
  | cons e rest ih =>
    intro m0 n
    by_cases hk : e.kind = "function"
    · have hslm : slmFold m0 n (e :: rest) =
          slmFold (insertSLM m0 (e.name ++ ":return") ⟨n, n + 1⟩) (n + 2) rest := by
        simp only [slmFold]
        rw [if_neg (by simp [hk])]
      rw [hslm, ih, insertSLM_lookup]
      simp only [List.filter_cons, hk]
      simp [or_assoc, or_comm, or_left_comm]
    · have hslm : slmFold m0 n (e :: rest) = slmFold m0 n rest := by
        simp only [slmFold]
        rw [if_pos hk]
      rw [hslm, ih]
      simp [List.filter_cons, hk]

/-- C8 (as amended): declaration synthesis substitutes the assigned
candidate type string at each parameter and return position, falling back to
`any` whenever the referenced slot or candidate index is missing or the
candidate type string is empty; and the produced slot-to-line map has an
entry exactly for every function export's return slot — in particular for no
parameter slot. -/
theorem synthesis_substitution (preds : Preds) (a : Assignment) :
    (buildDtsFromPreds preds a).1 = joinArr "\n" (specDtsLines preds a) ++ "\n" ∧
    (∀ sid : String, (List.lookup sid (buildDtsFromPreds preds a).2).isSome
      ↔ sid ∈ (preds.exports.filter (fun e => e.kind = "function")).map
          (fun e => e.name ++ ":return")) := by
  constructor
  · simp only [buildDtsFromPreds,
      buildDts_fold preds a preds.exports
        ["declare module \"" ++ preds.libName ++ "\" \x7b"] 2 []]
    unfold specDtsLines
    simp
  · intro sid
    simp only [buildDtsFromPreds,
      buildDts_fold preds a preds.exports
        ["declare module \"" ++ preds.libName ++ "\" \x7b"] 2 []]
    rw [slmFold_lookup sid preds.exports [] 2]
    simp [List.lookup]

/-- Counterexample to C8 as stated: the only slot's assigned candidate
exists (index 0 of slot `f:return`) and its type string is the empty string,
yet the synthesized declaration substitutes `any` at the return position —
the fallback also fires on an empty (falsy) type string, not only on a
missing slot or candidate index. -/
theorem synthesis_substitution_cex :
    predsC8.slots.find? (fun s => s.slotId = "f:return")
      = some ⟨"f:return", [⟨"", 1⟩]⟩ ∧
    lookupIdx (initialAssignment predsC8) "f:return" = 0 ∧
    (buildDtsFromPreds predsC8 (initialAssignment predsC8)).1 =
      "declare module \"m\" \x7b\n  // @slot:f:return\n  export function f(): any;\n\x7d\n" := by
  refine ⟨by decide, by decide, ?_⟩
  rfl

end Run
